import Mathlib

/-!
Shallow embedding of the inference control plane in
`verifiers/inference/vllm_serve.py` and `verifiers/inference/vllm_client.py`:
the balanced prompt split (`chunk_list`), the generate-endpoint dispatch and
aggregation, the weight-sync worker extension state machine
(`init_communicator` / `update_named_param` / `close_communicator`), the
client-side protocol mirror, the world-size handshake, the prefix-cache
reset, the worker-pool shutdown path, and the client health-check retry loop.
-/

set_option autoImplicit false
set_option linter.unusedVariables false

namespace Verifiers

/-- Python `chunk_list(lst, n)` from vllm_serve.py: with
`k, r = divmod(len(lst), n)`, chunk `i` is the slice
`lst[i*k + min(i, r) : (i+1)*k + min(i+1, r)]` for `i in range(n)`.
A Python slice `lst[a:b]` (with `a ≤ b ≤ len`) is `(lst.drop a).take (b - a)`. -/
def chunk_list {α : Type} (lst : List α) (n : ℕ) : List (List α) :=
  let k := lst.length / n
  let r := lst.length % n
  (List.range n).map fun i =>
    (lst.drop (i * k + min i r)).take ((i + 1) * k + min (i + 1) r - (i * k + min i r))

lemma slice_append_slice {α : Type} (l : List α) {a b c : ℕ} (hab : a ≤ b) (hbc : b ≤ c) :
    (l.drop a).take (b - a) ++ (l.drop b).take (c - b) = (l.drop a).take (c - a) := by
  have hd : l.drop b = (l.drop a).drop (b - a) := by
    rw [List.drop_drop]
    congr 1
    omega
  have hca : c - a = (b - a) + (c - b) := by omega
  rw [hd, hca, List.take_add]

lemma join_slices {α : Type} (l : List α) (f : ℕ → ℕ) (hf : ∀ i, f i ≤ f (i + 1)) :
    ∀ m, ((List.range m).map fun i => (l.drop (f i)).take (f (i + 1) - f i)).flatten
      = (l.drop (f 0)).take (f m - f 0)
  | 0 => by simp
  | m + 1 => by
    have hmono : Monotone f := monotone_nat_of_le_succ hf
    rw [List.range_succ, List.map_append, List.flatten_append, join_slices l f hf m]
    simp only [List.map_cons, List.map_nil, List.flatten_cons, List.flatten_nil, List.append_nil]
    exact slice_append_slice l (hmono (Nat.zero_le m)) (hf m)

lemma chunk_off_step (k r : ℕ) : ∀ i, i * k + min i r ≤ (i + 1) * k + min (i + 1) r := by
  intro i
  have h1 : i * k ≤ (i + 1) * k := Nat.mul_le_mul (Nat.le_succ i) (le_refl k)
  have h2 : min i r ≤ min (i + 1) r := min_le_min (Nat.le_succ i) (le_refl r)
  exact Nat.add_le_add h1 h2

lemma chunk_list_length {α : Type} (lst : List α) (n : ℕ) :
    (chunk_list lst n).length = n := by
  unfold chunk_list
  simp

lemma chunk_list_join {α : Type} (lst : List α) (n : ℕ) (hn : 1 ≤ n) :
    (chunk_list lst n).flatten = lst := by
  unfold chunk_list
  rw [join_slices lst (fun i => i * (lst.length / n) + min i (lst.length % n))
        (chunk_off_step _ _) n]
  have hr : lst.length % n < n := Nat.mod_lt _ hn
  have hd : n * (lst.length / n) + lst.length % n = lst.length := Nat.div_add_mod _ _
  have hfn : n * (lst.length / n) + min n (lst.length % n) = lst.length := by
    rw [min_eq_right (Nat.le_of_lt hr)]
    exact hd
  simp only [Nat.zero_mul, Nat.min_zero, Nat.zero_min, Nat.add_zero, Nat.zero_add,
    List.drop_zero, Nat.sub_zero]
  rw [hfn, List.take_length]

lemma chunk_list_getD {α : Type} (lst : List α) (n i : ℕ) (hi : i < n) :
    (chunk_list lst n).getD i [] =
      (lst.drop (i * (lst.length / n) + min i (lst.length % n))).take
        ((i + 1) * (lst.length / n) + min (i + 1) (lst.length % n)
          - (i * (lst.length / n) + min i (lst.length % n))) := by
  unfold chunk_list
  rw [List.getD_eq_getElem _ _ (by simpa using hi)]
  simp [hi]

lemma chunk_list_sizes {α : Type} (lst : List α) (n : ℕ) (hn : 1 ≤ n) (i : ℕ) (hi : i < n) :
    ((chunk_list lst n).getD i []).length =
      if i < lst.length % n then lst.length / n + 1 else lst.length / n := by
  rw [chunk_list_getD lst n i hi]
  rw [List.length_take, List.length_drop]
  have hBA : (i + 1) * (lst.length / n) = i * (lst.length / n) + lst.length / n := by ring
  have hBC : (i + 1) * (lst.length / n) ≤ n * (lst.length / n) :=
    Nat.mul_le_mul hi (le_refl _)
  have hd : n * (lst.length / n) + lst.length % n = lst.length := Nat.div_add_mod _ _
  have hr : lst.length % n < n := Nat.mod_lt _ hn
  generalize lst.length / n = k at *
  generalize hrr : lst.length % n = r at *
  generalize hA : i * k = A at *
  generalize hB : (i + 1) * k = B at *
  generalize hC : n * k = C at *
  rcases Nat.lt_or_ge i r with h | h
  · have h1 : min i r = i := min_eq_left (Nat.le_of_lt h)
    have h2 : min (i + 1) r = i + 1 := min_eq_left h
    rw [h1, h2, if_pos h]
    have ht : B + (i + 1) - (A + i) = k + 1 := by omega
    have hle : k + 1 ≤ lst.length - (A + i) := by omega
    rw [ht, min_eq_left hle]
  · have h1 : min i r = r := min_eq_right h
    have h2 : min (i + 1) r = r := min_eq_right (by omega)
    rw [h1, h2, if_neg (by omega)]
    have ht : B + r - (A + r) = k := by omega
    have hle : k ≤ lst.length - (A + r) := by omega
    rw [ht, min_eq_left hle]

/-- C1: for every prompt list and shard count `n ≥ 1`, `chunk_list` returns exactly
`n` chunks; with `k = len / n` and `r = len % n` the first `r` chunks have `k + 1`
items and the remaining chunks have `k` items; and the concatenation of the chunks
equals the original list in order. -/
theorem chunk_list_balanced_split {α : Type} (lst : List α) (n : ℕ) (hn : 1 ≤ n) :
    (chunk_list lst n).length = n ∧
    (∀ i, i < n → ((chunk_list lst n).getD i []).length =
        if i < lst.length % n then lst.length / n + 1 else lst.length / n) ∧
    (chunk_list lst n).flatten = lst :=
  ⟨chunk_list_length lst n, fun i hi => chunk_list_sizes lst n hn i hi,
    chunk_list_join lst n hn⟩

/-- Witness for `chunk_list_balanced_split` at the concrete input
`lst = [0, 1, 2, 3, 4]`, `n = 2` (chunk sizes `[3, 2]`). -/
theorem chunk_list_balanced_split_witness :
    (chunk_list ([0, 1, 2, 3, 4] : List ℕ) 2).length = 2 ∧
    (∀ i, i < 2 → ((chunk_list ([0, 1, 2, 3, 4] : List ℕ) 2).getD i []).length =
        if i < ([0, 1, 2, 3, 4] : List ℕ).length % 2
        then ([0, 1, 2, 3, 4] : List ℕ).length / 2 + 1
        else ([0, 1, 2, 3, 4] : List ℕ).length / 2) ∧
    (chunk_list ([0, 1, 2, 3, 4] : List ℕ) 2).flatten = [0, 1, 2, 3, 4] :=
  chunk_list_balanced_split [0, 1, 2, 3, 4] 2 (by decide)

/-- One engine response per prompt, as in vLLM's `RequestOutput`: `outputs` is
the list of the `n` sampled completions for that prompt, each a token-id list. -/
structure RequestOutput where
  outputs : List (List ℕ)
deriving DecidableEq

/-- One data-parallel worker servicing `llm.generate(prompts, sampling_params)`:
the engine (an external collaborator) returns one `RequestOutput` per prompt,
in prompt order. The engine is abstracted as a function from a prompt to its
response. -/
def worker_generate (engine : String → RequestOutput) (prompts : List String) :
    List RequestOutput :=
  prompts.map engine

/-- The `/generate/` endpoint body from vllm_serve.py: split the prompts with
`chunk_list` into `data_parallel_size` chunks, replace an empty chunk by the
single placeholder prompt `"<placeholder>"`, send one chunk to each worker in
connection order, collect the per-worker result lists in the same connection
order, flatten them, and return
`[list(o.token_ids) for r in outputs for o in r.outputs]`. -/
def generate_endpoint (data_parallel_size : ℕ) (engine : String → RequestOutput)
    (prompts : List String) : List (List ℕ) :=
  ((((chunk_list prompts data_parallel_size).map fun c =>
      worker_generate engine (if c.isEmpty then ["<placeholder>"] else c)).flatten).map
    fun r => r.outputs).flatten

lemma flatten_map_singleton {α β : Type} (l : List α) (f : α → β) :
    (l.map fun a => [f a]).flatten = l.map f := by
  induction l with
  | nil => rfl
  | cons a l ih => simp [ih]

lemma flatten_replicate_singleton {α : Type} (m : ℕ) (x : α) :
    (List.replicate m [x]).flatten = List.replicate m x := by
  induction m with
  | zero => rfl
  | succ m ih => simp [List.replicate_succ, ih]

lemma chunk_list_ne_nil {α : Type} (lst : List α) (n : ℕ) (hn : 1 ≤ n)
    (hlen : n ≤ lst.length) : ∀ c ∈ chunk_list lst n, c ≠ [] := by
  intro c hc
  rw [List.mem_iff_getElem] at hc
  obtain ⟨i, hi, hceq⟩ := hc
  rw [chunk_list_length] at hi
  have hgetD : (chunk_list lst n).getD i [] = c := by
    rw [List.getD_eq_getElem _ _ (by rw [chunk_list_length]; exact hi)]
    exact hceq
  have hsz := chunk_list_sizes lst n hn i hi
  rw [hgetD] at hsz
  have hk : 1 ≤ lst.length / n := (Nat.one_le_div_iff (by omega)).mpr hlen
  have hpos : 0 < c.length := by
    rw [hsz]
    split <;> omega
  exact List.ne_nil_of_length_pos hpos

lemma chunk_list_of_length_lt {α : Type} (lst : List α) (n : ℕ)
    (h : lst.length < n) :
    chunk_list lst n = lst.map (fun a => [a]) ++ List.replicate (n - lst.length) [] := by
  have hk : lst.length / n = 0 := Nat.div_eq_of_lt h
  have hr : lst.length % n = lst.length := Nat.mod_eq_of_lt h
  apply List.ext_getElem
  · rw [chunk_list_length]
    simp
    omega
  · intro i h1 h2
    rw [chunk_list_length] at h1
    unfold chunk_list
    simp only [hk, hr, Nat.mul_zero, Nat.zero_add, List.getElem_map, List.getElem_range]
    rcases Nat.lt_or_ge i lst.length with hil | hil
    · have hmin1 : min i lst.length = i := min_eq_left (Nat.le_of_lt hil)
      have hmin2 : min (i + 1) lst.length = i + 1 := min_eq_left hil
      rw [hmin1, hmin2, List.getElem_append_left (by simpa using hil)]
      have ht1 : i + 1 - i = 1 := by omega
      rw [ht1, List.take_one_drop_eq_of_lt_length hil]
      simp
    · have hmin1 : min i lst.length = lst.length := min_eq_right hil
      have hmin2 : min (i + 1) lst.length = lst.length := min_eq_right (by omega)
      rw [hmin1, hmin2, List.getElem_append_right (by simpa using hil)]
      simp

/-- C2 counterexample: with 1 prompt, data-parallel degree 2 and an engine
producing one completion per prompt, the aggregated output has 2 completion
groups, not 1: the placeholder chunk's output is not filtered out, so the
result is not one group per input prompt with nothing extra. -/
theorem generate_endpoint_placeholder_not_filtered :
    generate_endpoint 2 (fun p => ⟨[[p.length]]⟩) ["a"] = [[1], [13]] ∧
    (generate_endpoint 2 (fun p => ⟨[[p.length]]⟩) ["a"]).length ≠
      (["a"].map fun p => (⟨[[p.length]]⟩ : RequestOutput).outputs).flatten.length := by
  constructor <;> decide

/-- C2 amended: responses are collected in dispatch order and flattened; when
the prompt count is at least the data-parallel degree (no empty chunk), the
aggregated output is exactly the per-prompt completion groups in original
prompt order, nothing extra; when there are fewer prompts than workers, the
output is the original-order groups followed by the completion groups of
`dp - L` placeholder prompts (the placeholder outputs are not filtered). -/
theorem generate_endpoint_order (dp : ℕ) (engine : String → RequestOutput)
    (prompts : List String) (hdp : 1 ≤ dp) :
    (dp ≤ prompts.length →
      generate_endpoint dp engine prompts =
        (prompts.map fun p => (engine p).outputs).flatten) ∧
    (prompts.length < dp →
      generate_endpoint dp engine prompts =
        ((prompts ++ List.replicate (dp - prompts.length) "<placeholder>").map
          fun p => (engine p).outputs).flatten) := by
  constructor
  · intro hlen
    unfold generate_endpoint
    have hmap : (chunk_list prompts dp).map
        (fun c => worker_generate engine (if c.isEmpty then ["<placeholder>"] else c)) =
        (chunk_list prompts dp).map (fun c => c.map engine) := by
      apply List.map_congr_left
      intro c hc
      have hne : c ≠ [] := chunk_list_ne_nil prompts dp hdp hlen c hc
      rw [if_neg (by simpa using hne)]
      rfl
    rw [hmap, ← List.map_flatten, chunk_list_join prompts dp hdp, List.map_map]
    rfl
  · intro hlen
    unfold generate_endpoint
    rw [chunk_list_of_length_lt prompts dp hlen]
    rw [List.map_append, List.map_map, List.map_replicate]
    have h1 : (prompts.map
        ((fun c => worker_generate engine (if c.isEmpty then ["<placeholder>"] else c)) ∘
          fun a => [a])) = prompts.map (fun a => [engine a]) := by
      apply List.map_congr_left
      intro a _
      rfl
    have h2 : worker_generate engine
        (if ([] : List String).isEmpty then ["<placeholder>"] else []) =
        [engine "<placeholder>"] := rfl
    rw [h1, h2]
    rw [List.flatten_append, flatten_map_singleton, flatten_replicate_singleton]
    simp [List.map_append, List.map_map, List.map_replicate]
    rfl

/-- Witness for `generate_endpoint_order` at 5 prompts and degree 2: chunk
sizes are `[3, 2]` and the recombined responses preserve the original prompt
order. -/
theorem generate_endpoint_order_witness :
    generate_endpoint 2 (fun p => ⟨[[p.length]]⟩) ["a", "bb", "ccc", "dddd", "eeeee"] =
      ((["a", "bb", "ccc", "dddd", "eeeee"] : List String).map
        fun p => (⟨[[p.length]]⟩ : RequestOutput).outputs).flatten :=
  (generate_endpoint_order 2 (fun p => ⟨[[p.length]]⟩) ["a", "bb", "ccc", "dddd", "eeeee"]
    (by decide)).1 (by decide)

/-- Events performed by a shard inside
`WeightSyncWorkerExtension.update_named_param`: allocate the receive buffer
(`torch.empty(shape, dtype, device)`), receive the collective broadcast from a
source rank, hit the group barrier, and hot-swap the received tensor into the
live model (`model_runner.model.load_weights(weights=[(name, weight)])`). -/
inductive WorkerEvent where
  | allocEmpty (shape : List ℕ) (dtype : String)
  | broadcastRecv (src : Option ℕ)
  | barrier
  | loadWeights (name : String)
deriving DecidableEq

/-- Per-shard state of `WeightSyncWorkerExtension` over tensor values `V`:
`pynccl_comm` and `client_rank` start as `None` and are set by
`init_communicator`; `model` is the shard's live named-parameter store. -/
structure WorkerState (V : Type) where
  pynccl_comm : Option Unit
  client_rank : Option ℕ
  model : String → Option V

/-- Result of running one Python method on a shard: a normal return with the
post-state and a value, or a raised exception carrying the state at the raise
point (mutations before the raise persist; none follow it). -/
inductive PyResult (σ ε α : Type) where
  | ok (s : σ) (a : α)
  | raised (s : σ) (e : ε)

/-- `WeightSyncWorkerExtension.init_communicator(host, port, world_size)` from
vllm_serve.py: raise at once if a communicator is already initialised
(before any mutation); otherwise create the stateless process group and the
communicator and record `client_rank = world_size - 1` (the external client is
the last rank). -/
def init_communicator {V : Type} (s : WorkerState V) (host : String) (port : ℕ)
    (world_size : ℕ) : PyResult (WorkerState V) String Unit :=
  match s.pynccl_comm with
  | some _ =>
      .raised s "Weight update group already initialised; call close_communicator() first."
  | none =>
      .ok { s with pynccl_comm := some (), client_rank := some (world_size - 1) } ()

/-- `WeightSyncWorkerExtension.update_named_param(name, dtype, shape)` from
vllm_serve.py: raise at once if no communicator is initialised (before the
buffer allocation, the broadcast and the model mutation — the raised branch
returns no events and the unchanged state); otherwise allocate the receive
buffer, broadcast into it with `src = self.client_rank`, barrier, and hot-swap
the received tensor (`recv`, the value delivered by the broadcast) into the
live model under `name`. -/
def update_named_param {V : Type} (s : WorkerState V) (name : String) (dtype : String)
    (shape : List ℕ) (recv : V) : PyResult (WorkerState V) String (List WorkerEvent) :=
  match s.pynccl_comm with
  | none => .raised s "Communicator not initialised. Call init_communicator() first."
  | some _ =>
      .ok { s with model := fun n => if n = name then some recv else s.model n }
        [.allocEmpty shape dtype, .broadcastRecv s.client_rank, .barrier, .loadWeights name]

/-- `WeightSyncWorkerExtension.close_communicator` from vllm_serve.py: if a
communicator is present, delete it and reset both fields to `None`; otherwise
do nothing (no error). -/
def close_communicator {V : Type} (s : WorkerState V) : WorkerState V :=
  match s.pynccl_comm with
  | some _ => { s with pynccl_comm := none, client_rank := none }
  | none => s

/-- Client-side events in `VLLMClient.update_named_param`: the HTTP request
arming the shards, the matching collective broadcast from the client's own
rank, and the barrier. -/
inductive ClientEvent where
  | postUpdateNamedParam (name : String) (dtype : String) (shape : List ℕ)
  | broadcastSend (src : ℕ)
  | barrier
deriving DecidableEq

/-- `VLLMClient.update_named_param(name, weights)` from vllm_client.py: post
`{name, dtype, shape}` to the control plane, then broadcast the source tensor
with `src = self.rank` over the collective channel, then barrier. -/
def client_update_named_param (rank : ℕ) (name : String) (dtype : String)
    (shape : List ℕ) : List ClientEvent :=
  [.postUpdateNamedParam name dtype shape, .broadcastSend rank, .barrier]

/-- C3: on a shard whose communicator is initialised, `update_named_param`
performs exactly, in order: allocate the receive buffer of the given shape and
dtype, broadcast into it with source rank equal to the recorded client rank,
barrier, then hot-swap the received tensor into the live model state under the
given parameter name; and the client's `update_named_param` performs the HTTP
arm, then its matching broadcast from its own rank, then a barrier. -/
theorem update_named_param_protocol {V : Type} (s : WorkerState V) (cr : ℕ)
    (hcomm : s.pynccl_comm = some ()) (hcr : s.client_rank = some cr)
    (name dtype : String) (shape : List ℕ) (recv : V) (crank : ℕ) :
    update_named_param s name dtype shape recv =
      .ok { s with model := fun n => if n = name then some recv else s.model n }
        [.allocEmpty shape dtype, .broadcastRecv (some cr), .barrier,
         .loadWeights name] ∧
    client_update_named_param crank name dtype shape =
      [.postUpdateNamedParam name dtype shape, .broadcastSend crank, .barrier] := by
  refine ⟨?_, rfl⟩
  unfold update_named_param
  rw [hcomm, hcr]

/-- Witness for `update_named_param_protocol` at a concrete initialised shard
state. -/
theorem update_named_param_protocol_witness :
    update_named_param (V := ℕ) ⟨some (), some 2, fun _ => none⟩ "w" "torch.float32"
        [4, 4] 7 =
      .ok { pynccl_comm := some (), client_rank := some 2,
            model := fun n => if n = "w" then some 7 else none }
        [.allocEmpty [4, 4] "torch.float32", .broadcastRecv (some 2), .barrier,
         .loadWeights "w"] ∧
    client_update_named_param 2 "w" "torch.float32" [4, 4] =
      [.postUpdateNamedParam "w" "torch.float32" [4, 4], .broadcastSend 2, .barrier] :=
  update_named_param_protocol ⟨some (), some 2, fun _ => none⟩ 2 rfl rfl
    "w" "torch.float32" [4, 4] 7 2

/-- C4: group-state misuse is a raised error, not a silent action: initialising
a shard whose communicator is active raises and returns the state unchanged,
and `update_named_param` on a shard with no active communicator raises with the
state unchanged and no events (so no broadcast and no model mutation). -/
theorem group_state_misuse_raises {V : Type} (s t : WorkerState V)
    (host : String) (port world_size : ℕ) (name dtype : String) (shape : List ℕ)
    (recv : V) (hcomm : s.pynccl_comm.isSome) (hnone : t.pynccl_comm = none) :
    (∃ e, init_communicator s host port world_size = .raised s e) ∧
    (∃ e, update_named_param t name dtype shape recv = .raised t e) := by
  constructor
  · obtain ⟨u, hu⟩ := Option.isSome_iff_exists.mp hcomm
    exact ⟨_, by unfold init_communicator; rw [hu]⟩
  · exact ⟨_, by unfold update_named_param; rw [hnone]⟩

/-- Witness for `group_state_misuse_raises` at concrete shard states. -/
theorem group_state_misuse_raises_witness :
    (∃ e, init_communicator (V := ℕ) ⟨some (), some 2, fun _ => none⟩ "h" 1234 3 =
      .raised ⟨some (), some 2, fun _ => none⟩ e) ∧
    (∃ e, update_named_param (V := ℕ) ⟨none, none, fun _ => none⟩ "w" "torch.float32"
        [4] 7 = .raised ⟨none, none, fun _ => none⟩ e) :=
  group_state_misuse_raises ⟨some (), some 2, fun _ => none⟩ ⟨none, none, fun _ => none⟩
    "h" 1234 3 "w" "torch.float32" [4] 7 rfl rfl

/-- C5: `close_communicator` is idempotent on every shard state: when a
communicator is active it releases it and clears both communicator fields; when
none is active it is a no-op (it is a total function: no error path exists);
hence closing twice equals closing once. -/
theorem close_communicator_idempotent {V : Type} (s : WorkerState V) :
    (s.pynccl_comm.isSome →
      close_communicator s = { s with pynccl_comm := none, client_rank := none }) ∧
    (s.pynccl_comm = none → close_communicator s = s) ∧
    close_communicator (close_communicator s) = close_communicator s := by
  obtain ⟨c, r, m⟩ := s
  cases c with
  | none => exact ⟨fun h => by simp at h, fun _ => rfl, rfl⟩
  | some u =>
      cases u
      exact ⟨fun _ => rfl, fun h => by simp at h, rfl⟩

/-- Witness for `close_communicator_idempotent` at a concrete active shard
state. -/
theorem close_communicator_idempotent_witness :
    ((⟨some (), some 2, fun _ => none⟩ : WorkerState ℕ).pynccl_comm.isSome →
      close_communicator (V := ℕ) ⟨some (), some 2, fun _ => none⟩ =
        { pynccl_comm := none, client_rank := none, model := fun _ => none }) ∧
    ((⟨some (), some 2, fun _ => none⟩ : WorkerState ℕ).pynccl_comm = none →
      close_communicator (V := ℕ) ⟨some (), some 2, fun _ => none⟩ =
        ⟨some (), some 2, fun _ => none⟩) ∧
    close_communicator (close_communicator (V := ℕ) ⟨some (), some 2, fun _ => none⟩) =
      close_communicator (V := ℕ) ⟨some (), some 2, fun _ => none⟩ :=
  close_communicator_idempotent ⟨some (), some 2, fun _ => none⟩

/-- The `/get_world_size/` endpoint from vllm_serve.py: returns
`tensor_parallel_size * data_parallel_size`. -/
def get_world_size (tensor_parallel_size data_parallel_size : ℕ) : ℕ :=
  tensor_parallel_size * data_parallel_size

/-- Client-side communicator parameters set by `VLLMClient.init_communicator`
in vllm_client.py: it reads the server's world size, uses
`world_size = vllm_world_size + 1`, and assigns itself
`self.rank = vllm_world_size` (the top rank). -/
structure ClientComm where
  rank : ℕ
  world_size : ℕ
deriving DecidableEq

/-- `VLLMClient.init_communicator` rank computation from vllm_client.py. -/
def client_init_communicator (vllm_world_size : ℕ) : ClientComm :=
  { world_size := vllm_world_size + 1, rank := vllm_world_size }

/-- C6: the world-size endpoint returns tp × dp; the client computes
`world_size = tp·dp + 1` and takes the top rank `tp·dp = world_size − 1`; a
shard initialised with the client's `world_size` records
`client_rank = world_size − 1`, which equals the rank the client broadcasts
with. -/
theorem world_size_handshake {V : Type} (tp dp : ℕ) (s : WorkerState V)
    (hcomm : s.pynccl_comm = none) (host : String) (port : ℕ) :
    get_world_size tp dp = tp * dp ∧
    (client_init_communicator (get_world_size tp dp)).world_size = tp * dp + 1 ∧
    (client_init_communicator (get_world_size tp dp)).rank =
      (client_init_communicator (get_world_size tp dp)).world_size - 1 ∧
    ∃ s1, init_communicator s host port
        (client_init_communicator (get_world_size tp dp)).world_size = .ok s1 () ∧
      s1.client_rank = some (client_init_communicator (get_world_size tp dp)).rank := by
  refine ⟨rfl, rfl, by simp [client_init_communicator], ?_⟩
  refine ⟨_, by unfold init_communicator; rw [hcomm], ?_⟩
  simp [client_init_communicator, get_world_size]

/-- Witness for `world_size_handshake` at tp = 2, dp = 3 and a concrete fresh
shard state. -/
theorem world_size_handshake_witness :
    get_world_size 2 3 = 2 * 3 ∧
    (client_init_communicator (get_world_size 2 3)).world_size = 2 * 3 + 1 ∧
    (client_init_communicator (get_world_size 2 3)).rank =
      (client_init_communicator (get_world_size 2 3)).world_size - 1 ∧
    ∃ s1, init_communicator (V := ℕ) ⟨none, none, fun _ => none⟩ "h" 1234
        (client_init_communicator (get_world_size 2 3)).world_size = .ok s1 () ∧
      s1.client_rank = some (client_init_communicator (get_world_size 2 3)).rank :=
  world_size_handshake 2 3 ⟨none, none, fun _ => none⟩ rfl "h" 1234

/-- Tag of a command sent over a worker connection, as in vllm_serve.py. -/
inductive CmdType where
  | call
  | fire_and_forget
  | shutdown
deriving DecidableEq

/-- A command sent over a worker connection: its type tag and method name. -/
structure Command where
  type : CmdType
  method : String
deriving DecidableEq

/-- The `/reset_prefix_cache/` endpoint from vllm_serve.py: send
`{"type": "call", "method": "reset_prefix_cache"}` to every worker connection,
receive every worker's boolean result in connection order, and report
`all(results)`. Each connection is modelled by its shard's boolean result; the
first component is the list of dispatched commands, the second the reported
status. -/
def reset_prefix_cache_endpoint (shard_results : List Bool) : List Command × Bool :=
  (shard_results.map fun _ => ⟨CmdType.call, "reset_prefix_cache"⟩,
   shard_results.all fun b => b)

/-- C7: `reset_prefix_cache` dispatches one `call` command per shard, waits for
every shard's boolean result, and reports the logical AND: false iff some shard
reports failure, true iff all shards report success. -/
theorem reset_prefix_cache_and (shard_results : List Bool) :
    (reset_prefix_cache_endpoint shard_results).1.length = shard_results.length ∧
    (∀ c ∈ (reset_prefix_cache_endpoint shard_results).1,
      c = ⟨CmdType.call, "reset_prefix_cache"⟩) ∧
    ((reset_prefix_cache_endpoint shard_results).2 = false ↔
      ∃ b ∈ shard_results, b = false) ∧
    ((reset_prefix_cache_endpoint shard_results).2 = true ↔
      ∀ b ∈ shard_results, b = true) := by
  unfold reset_prefix_cache_endpoint
  refine ⟨by simp, by simp, ?_, ?_⟩
  · simp [List.all_eq_true]
  · simp [List.all_eq_true]

/-- Witness for `reset_prefix_cache_and` at the concrete result list
`[true, false]` (one shard failing). -/
theorem reset_prefix_cache_and_witness :
    (reset_prefix_cache_endpoint [true, false]).1.length =
      ([true, false] : List Bool).length ∧
    (∀ c ∈ (reset_prefix_cache_endpoint [true, false]).1,
      c = ⟨CmdType.call, "reset_prefix_cache"⟩) ∧
    ((reset_prefix_cache_endpoint [true, false]).2 = false ↔
      ∃ b ∈ ([true, false] : List Bool), b = false) ∧
    ((reset_prefix_cache_endpoint [true, false]).2 = true ↔
      ∀ b ∈ ([true, false] : List Bool), b = true) :=
  reset_prefix_cache_and [true, false]

/-- One worker process at control-plane shutdown: whether `p.is_alive()` still
reports true after `p.join(timeout=10)` returns. -/
structure ProcStatus where
  aliveAfterJoinTimeout : Bool
deriving DecidableEq

/-- Observable actions of the post-`yield` shutdown path of `lifespan` in
vllm_serve.py. A `sendCommand` event would be a command sent over a worker
connection during shutdown; the code sends none. -/
inductive ShutdownEvent where
  | sendCommand (cmd : Command)
  | join (timeout : Option ℕ)
  | terminate
deriving DecidableEq

/-- Boolean test for `ShutdownEvent.sendCommand`. -/
def ShutdownEvent.isSendCmd : ShutdownEvent → Bool
  | .sendCommand _ => true
  | _ => false

/-- The post-`yield` body of `lifespan` from vllm_serve.py: for each worker
process in order, `p.join(timeout=10)`; if the process is still alive,
`p.terminate()` then `p.join()`. No command of any kind is sent over the
worker connections. -/
def lifespan_shutdown (processes : List ProcStatus) : List ShutdownEvent :=
  (processes.map fun p =>
    [ShutdownEvent.join (some 10)] ++
      (if p.aliveAfterJoinTimeout then [ShutdownEvent.terminate, ShutdownEvent.join none]
       else [])).flatten

/-- One step of the `llm_worker` receive loop in vllm_serve.py: a `shutdown`
command breaks the loop; a `call` command invokes the named method and sends
the result back; a `fire_and_forget` command invokes it without replying. -/
inductive WorkerStepResult where
  | stop
  | callAndReply (method : String)
  | callNoReply (method : String)
deriving DecidableEq

/-- Dispatch on one received command in the `llm_worker` loop of
vllm_serve.py. -/
def llm_worker_step (cmd : Command) : WorkerStepResult :=
  match cmd.type with
  | .shutdown => .stop
  | .call => .callAndReply cmd.method
  | .fire_and_forget => .callNoReply cmd.method

/-- C8 counterexample: for a concrete one-process fleet the shutdown trace is
join-with-timeout, terminate, join — no graceful `shutdown` command (no
`sendCommand` event at all) is attempted before joining, contrary to the
claim. -/
theorem lifespan_shutdown_no_graceful_command :
    lifespan_shutdown [⟨true⟩] =
      [ShutdownEvent.join (some 10), ShutdownEvent.terminate, ShutdownEvent.join none] ∧
    (lifespan_shutdown [⟨true⟩]).all (fun e => !e.isSendCmd) = true := by
  constructor <;> decide

/-- C8 amended: on shutdown the Worker Pool Manager sends no command to the
workers; it joins each worker process with a bounded 10-second timeout (one
such join per process) and force-terminates (terminate, then unbounded join)
exactly those processes still alive after the timeout. The workers do have a
handler for a `shutdown` command (`llm_worker_step` of a shutdown command stops
the loop), but the shutdown path never sends it. -/
theorem lifespan_shutdown_spec (processes : List ProcStatus) :
    (∀ e ∈ lifespan_shutdown processes, e.isSendCmd = false) ∧
    (lifespan_shutdown processes).count (ShutdownEvent.join (some 10)) =
      processes.length ∧
    (lifespan_shutdown processes).count ShutdownEvent.terminate =
      (processes.filter fun p => p.aliveAfterJoinTimeout).length ∧
    (∀ m, llm_worker_step ⟨CmdType.shutdown, m⟩ = .stop) := by
  refine ⟨?_, ?_, ?_, fun m => rfl⟩
  · intro e he
    unfold lifespan_shutdown at he
    rw [List.mem_flatten] at he
    obtain ⟨l, hl, hel⟩ := he
    rw [List.mem_map] at hl
    obtain ⟨p, _, rfl⟩ := hl
    rcases hp : p.aliveAfterJoinTimeout with _ | _ <;> rw [hp] at hel <;> simp at hel
    · subst hel
      rfl
    · rcases hel with h | h | h <;> subst h <;> rfl
  · induction processes with
    | nil => rfl
    | cons p ps ih =>
        unfold lifespan_shutdown at ih ⊢
        rcases hp : p.aliveAfterJoinTimeout with _ | _ <;>
          simp [hp, List.count_append, List.count_cons] at ih ⊢ <;> omega
  · induction processes with
    | nil => rfl
    | cons p ps ih =>
        unfold lifespan_shutdown at ih ⊢
        rcases hp : p.aliveAfterJoinTimeout with _ | _ <;>
          simp [hp, List.count_append, List.count_cons, List.filter_cons] at ih ⊢ <;> omega

/-- Witness for `lifespan_shutdown_spec` at a concrete two-process fleet, one
process outliving the join timeout. -/
theorem lifespan_shutdown_spec_witness :
    (∀ e ∈ lifespan_shutdown [⟨true⟩, ⟨false⟩], e.isSendCmd = false) ∧
    (lifespan_shutdown [⟨true⟩, ⟨false⟩]).count (ShutdownEvent.join (some 10)) =
      ([⟨true⟩, ⟨false⟩] : List ProcStatus).length ∧
    (lifespan_shutdown [⟨true⟩, ⟨false⟩]).count ShutdownEvent.terminate =
      (([⟨true⟩, ⟨false⟩] : List ProcStatus).filter
        fun p => p.aliveAfterJoinTimeout).length ∧
    (∀ m, llm_worker_step ⟨CmdType.shutdown, m⟩ = .stop) :=
  lifespan_shutdown_spec [⟨true⟩, ⟨false⟩]

/-- Outcome of one `requests.get(url)` attempt inside `VLLMClient.check_server`
in vllm_client.py: either the request raised a `RequestException`, or it
returned a response with the given status code. -/
inductive Attempt where
  | exn
  | status (code : ℕ)
deriving DecidableEq

/-- Result of `check_server`: a normal return (server healthy) or a raised
`ConnectionError`. -/
inductive CheckResult where
  | ok
  | connError
deriving DecidableEq

/-- The retry loop of `VLLMClient.check_server(total_timeout)` from
vllm_client.py, with explicit fuel: `attempt i` is the outcome of the i-th
`requests.get` and `elapsed i` the value of `time.time() - start_time` when the
i-th exception is handled. On a request exception the loop raises
`ConnectionError` exactly when `total_timeout ≤ elapsed i`; on a response it
returns when the status code is 200; in every other case it sleeps for the
retry interval and retries. `none` means the loop is still running after
`fuel` iterations. -/
def check_server_loop (attempt : ℕ → Attempt) (elapsed : ℕ → ℕ)
    (total_timeout : ℕ) : ℕ → ℕ → Option CheckResult
  | 0, _ => none
  | fuel + 1, i =>
      match attempt i with
      | .exn =>
          if total_timeout ≤ elapsed i then some .connError
          else check_server_loop attempt elapsed total_timeout fuel (i + 1)
      | .status code =>
          if code = 200 then some .ok
          else check_server_loop attempt elapsed total_timeout fuel (i + 1)

lemma check_server_loop_all_exn (attempt : ℕ → Attempt) (elapsed : ℕ → ℕ)
    (T : ℕ) (hexn : ∀ i, attempt i = .exn) :
    ∀ fuel i0, (∃ j, i0 ≤ j ∧ j < i0 + fuel ∧ T ≤ elapsed j) →
      check_server_loop attempt elapsed T fuel i0 = some .connError := by
  intro fuel
  induction fuel with
  | zero => intro i0 ⟨j, h1, h2, _⟩; omega
  | succ fuel ih =>
      intro i0 ⟨j, h1, h2, h3⟩
      unfold check_server_loop
      rw [hexn i0]
      show (if T ≤ elapsed i0 then some CheckResult.connError
        else check_server_loop attempt elapsed T fuel (i0 + 1)) = some CheckResult.connError
      rcases le_or_lt T (elapsed i0) with h | h
      · rw [if_pos h]
      · rw [if_neg (by omega)]
        apply ih
        have hji : j ≠ i0 := fun he => by rw [he] at h3; omega
        exact ⟨j, by omega, by omega, h3⟩

/-- C9: `check_server` returns successfully as soon as an attempt receives a
200 response; whenever it raises the connection error, the raising attempt
threw a request exception with at least the configured total timeout already
elapsed (so it never raises before `T` has elapsed); and against an unreachable
server (every attempt throws) it does raise the connection error once the
elapsed time reaches `T`, retrying until then. -/
theorem check_server_timeout (attempt : ℕ → Attempt) (elapsed : ℕ → ℕ) (T : ℕ) :
    (∀ i fuel, attempt i = .status 200 →
      check_server_loop attempt elapsed T (fuel + 1) i = some .ok) ∧
    (∀ fuel i0, check_server_loop attempt elapsed T fuel i0 = some .connError →
      ∃ i, i0 ≤ i ∧ attempt i = .exn ∧ T ≤ elapsed i) ∧
    ((∀ i, attempt i = .exn) → ∀ N, T ≤ elapsed N →
      check_server_loop attempt elapsed T (N + 1) 0 = some .connError) := by
  refine ⟨?_, ?_, ?_⟩
  · intro i fuel h200
    unfold check_server_loop
    rw [h200]
    simp
  · intro fuel
    induction fuel with
    | zero => intro i0 h; cases h
    | succ fuel ih =>
        intro i0 h
        unfold check_server_loop at h
        split at h
        · rename_i ha
          split at h
          · rename_i hT
            exact ⟨i0, le_refl i0, ha, hT⟩
          · obtain ⟨i, hi1, hi2, hi3⟩ := ih (i0 + 1) h
            exact ⟨i, by omega, hi2, hi3⟩
        · rename_i code ha
          split at h
          · cases h
          · obtain ⟨i, hi1, hi2, hi3⟩ := ih (i0 + 1) h
            exact ⟨i, by omega, hi2, hi3⟩
  · intro hexn N hN
    exact check_server_loop_all_exn attempt elapsed T hexn (N + 1) 0 ⟨N, by omega, by omega, hN⟩

/-- Witness for `check_server_timeout`: a server that answers 200 at attempt 0
makes the loop return ok; a concrete raised error implies a timed-out exception
attempt; and an all-exception run with elapsed time `i` and timeout 3 raises at
fuel 4. -/
theorem check_server_timeout_witness :
    check_server_loop (fun _ => Attempt.status 200) (fun i => i) 3 1 0 = some .ok ∧
    (∃ i, 0 ≤ i ∧ (fun _ => Attempt.exn) i = Attempt.exn ∧ 3 ≤ (fun i => i) i) ∧
    check_server_loop (fun _ => Attempt.exn) (fun i => i) 3 4 0 = some .connError := by
  refine ⟨(check_server_timeout (fun _ => Attempt.status 200) (fun i => i) 3).1 0 0 rfl,
    ?_, (check_server_timeout (fun _ => Attempt.exn) (fun i => i) 3).2.2
      (fun i => rfl) 3 (by decide)⟩
  exact (check_server_timeout (fun _ => Attempt.exn) (fun i => i) 3).2.1 4 0
    ((check_server_timeout (fun _ => Attempt.exn) (fun i => i) 3).2.2
      (fun i => rfl) 3 (by decide))

/-- C10: the timeout bounds only connection failures: if every attempt reaches
the server and receives a non-200 status, the `check_server` loop neither
returns nor raises, for any fuel and any configured total timeout — it retries
forever. -/
theorem check_server_non200_loops_forever (attempt : ℕ → Attempt)
    (elapsed : ℕ → ℕ) (T : ℕ)
    (h : ∀ i, ∃ code, attempt i = .status code ∧ code ≠ 200) :
    ∀ fuel i, check_server_loop attempt elapsed T fuel i = none := by
  intro fuel
  induction fuel with
  | zero => intro i; rfl
  | succ fuel ih =>
      intro i
      obtain ⟨code, hc, hne⟩ := h i
      unfold check_server_loop
      rw [hc]
      show (if code = 200 then some CheckResult.ok
        else check_server_loop attempt elapsed T fuel (i + 1)) = none
      rw [if_neg hne]
      exact ih (i + 1)

/-- Witness for `check_server_non200_loops_forever`: a server that always
answers 500 keeps the loop running (result `none`) at fuel 5 even with total
timeout 0. -/
theorem check_server_non200_loops_forever_witness :
    check_server_loop (fun _ => Attempt.status 500) (fun i => i) 0 5 0 = none :=
  check_server_non200_loops_forever (fun _ => Attempt.status 500) (fun i => i) 0
    (fun _ => ⟨500, rfl, by decide⟩) 5 0

end Verifiers
